import Mathlib

/-!
Verification of the polkavm host-side driver against its specification.

The definitions below are shallow embeddings of the Rust sources:

* namespace `Spectool` embeds `src/tools/spectool/src/lib.rs` (sparse-chunk
  extraction, directive parsing, and the post-execution check section of
  `prepare_input`).
* namespace `PvmShell` embeds `src/pvm-shell/src/lib.rs` (the interactive VM
  session controller: page-map classification, chunk placement, reset,
  stepping, and the lock-guarded accessors).

Machine integers are modelled as `Nat` / `Int`; byte buffers as
`List Nat`.  Rust panics are modelled as explicit error values of an
`Except`.  The polkavm interpreter itself (`RawInstance`) is not part of
this repository's sources; where its behaviour is needed it is modelled
from the specification, with a doc comment saying so.
-/

deriving instance DecidableEq for Except

namespace Spectool

/-- Mirrors `struct MemoryChunk { address: u32, contents: Vec<u8> }`.
Addresses are modelled as unbounded naturals (the source uses `u32`). -/
structure MemoryChunk where
  address : Nat
  contents : List Nat
  deriving Repr, DecidableEq

/-- Embeds `extract_chunks` from `src/tools/spectool/src/lib.rs`: scan the
buffer left to right, skip zero runs, and emit one chunk per maximal
non-zero run (`takeWhile (· ≠ 0)` is the source's
`iter().take_while(|&&byte| byte != 0)`).  The source's `position` scan is
carried here as the running absolute address `base`
(i.e. `base_address + position`). -/
def extract_chunks (base : Nat) (slice : List Nat) : List MemoryChunk :=
  match slice with
  | [] => []
  | b :: rest =>
    if b = 0 then
      extract_chunks (base + 1) rest
    else
      let run := List.takeWhile (· ≠ 0) (b :: rest)
      { address := base, contents := run } ::
        extract_chunks (base + run.length) (List.dropWhile (· ≠ 0) (b :: rest))
termination_by slice.length
decreasing_by
  · simp
  · simp only [List.dropWhile_cons]
    have h1 := (List.dropWhile_sublist (fun x => decide (x ≠ 0)) (l := rest)).length_le
    simp_all
    omega

/-- Copy `data` into `buf` starting at offset `off` (the effect of Rust's
`buf[off .. off + data.len()].copy_from_slice(&data)` when the write is in
bounds). -/
def writeAt (buf : List Nat) (off : Nat) (data : List Nat) : List Nat :=
  buf.take off ++ data ++ buf.drop (off + data.length)

/-- The spec's `apply` side of the round-trip law: zero-fill a buffer of
length `len` and copy each chunk's contents at its relative offset
`chunk.address - base`. -/
def apply_chunks (base : Nat) (len : Nat) (chunks : List MemoryChunk) : List Nat :=
  chunks.foldl (fun buf c => writeAt buf (c.address - base) c.contents)
    (List.replicate len 0)

/-- Rust `str::trim` on a character list (character-level model of the
byte-level original; the directive grammar is ASCII). -/
def trimChars (s : List Char) : List Char :=
  (((s.dropWhile Char.isWhitespace).reverse).dropWhile Char.isWhitespace).reverse

/-- One or more decimal digits, folded into a number. -/
def parseDecimal (s : List Char) : Option Nat :=
  if s.isEmpty then none
  else if s.all Char.isDigit then
    some (s.foldl (fun acc c => acc * 10 + (c.toNat - ('0').toNat)) 0)
  else none

/-- Modelled from the spec: Rust `str::parse::<u32>` used for the
`@label[offset]` instruction offset — an optional `+` sign followed by one
or more decimal digits, rejecting values outside `u32`. -/
def parseU32 (s : List Char) : Option Nat :=
  let digits := match s with
    | '+' :: rest => rest
    | _ => s
  match parseDecimal digits with
  | some v => if v < 2 ^ 32 then some v else none
  | none => none

/-- Modelled from the spec: Rust `str::parse::<i64>` used for `gas`
values — an optional sign followed by one or more decimal digits,
rejecting values outside `i64`. -/
def parseI64 (s : List Char) : Option Int :=
  match s with
  | '-' :: rest =>
    match parseDecimal rest with
    | some v => if v ≤ 2 ^ 63 then some (-(v : Int)) else none
    | none => none
  | '+' :: rest =>
    match parseDecimal rest with
    | some v => if v < 2 ^ 63 then some (v : Int) else none
    | none => none
  | _ =>
    match parseDecimal s with
    | some v => if v < 2 ^ 63 then some (v : Int) else none
    | none => none

/-- The value of one hexadecimal digit. -/
def hexDigitVal (c : Char) : Option Nat :=
  if c.isDigit then some (c.toNat - ('0').toNat)
  else if 'a' ≤ c ∧ c ≤ 'f' then some (c.toNat - ('a').toNat + 10)
  else if 'A' ≤ c ∧ c ≤ 'F' then some (c.toNat - ('A').toNat + 10)
  else none

/-- One or more hexadecimal digits, folded into a number. -/
def parseHex (s : List Char) : Option Nat :=
  if s.isEmpty then none
  else if s.all (fun c => (hexDigitVal c).isSome) then
    some (s.foldl (fun acc c => acc * 16 + (hexDigitVal c).getD 0) 0)
  else none

/-- The magnitude of an immediate: `0x`-prefixed hex or plain decimal. -/
def parseImmMag (s : List Char) : Option Nat :=
  match s with
  | '0' :: 'x' :: rest => parseHex rest
  | _ => parseDecimal s

/-- Modelled from the spec: `polkavm_common::utils::parse_immediate` is
outside this repository's sources.  §4.3: a register value is a "literal
integer, hex or decimal, per target word width" (64-bit here); a negative
value wraps to its two's complement. -/
def parse_immediate (s : List Char) : Option Nat :=
  match s with
  | '-' :: rest =>
    match parseImmMag rest with
    | some v => if 0 < v ∧ v ≤ 2 ^ 63 then some ((2 ^ 64 - v) % 2 ^ 64) else none
    | none => none
  | _ =>
    match parseImmMag s with
    | some v => if v < 2 ^ 64 then some v else none
    | none => none

/-- Modelled from the spec: `polkavm_common::utils::parse_reg` is outside
this repository's sources.  §3/§4.3: a directive key may be one of the 13
general-purpose register names; unknown names fail. -/
def parse_reg (s : List Char) : Option Nat :=
  if s = "ra".data then some 0
  else if s = "sp".data then some 1
  else if s = "t0".data then some 2
  else if s = "t1".data then some 3
  else if s = "t2".data then some 4
  else if s = "s0".data then some 5
  else if s = "s1".data then some 6
  else if s = "a0".data then some 7
  else if s = "a1".data then some 8
  else if s = "a2".data then some 9
  else if s = "a3".data then some 10
  else if s = "a4".data then some 11
  else if s = "a5".data then some 12
  else none

/-- Mirrors `enum ProgramCounterRef`. -/
inductive ProgramCounterRef
  | byLabel (label : List Char) (instruction_offset : Nat)
  | preset (pc : Nat)
  deriving Repr, DecidableEq

/-- Mirrors `struct PrePost { gas, regs, pc }` with its `Default`. -/
structure PrePost where
  gas : Option Int := none
  regs : List (Option Nat) := List.replicate 13 none
  pc : Option ProgramCounterRef := none
  deriving Repr, DecidableEq

/-- The `expect`/`panic!` messages `parse_pre_post` can raise, as explicit
error values (the spec's ParseError). -/
inductive ParseErr
  | noEquals
  | gasValue
  | pcNoAt
  | pcNoLBracket
  | pcNoRBracket
  | pcBadOffset
  | pcJunkAfterBracket
  | badRegister
  | badValue
  deriving Repr, DecidableEq

/-- Rust `str::strip_prefix` for a single character. -/
def strip_prefix_char (c : Char) : List Char → Option (List Char)
  | x :: rest => if x = c then some rest else none
  | [] => none

/-- Embeds `parse_pre_post` from `src/tools/spectool/src/lib.rs`: split the
trimmed line at the first `=`; `gas` takes an i64, `pc` takes
`@label[offset]` with nothing after the bracket, and any other key is a
register name with an immediate value.  Each assignment overwrites the
previous value of the same key unconditionally. -/
def parse_pre_post (line0 : List Char) (output : PrePost) : Except ParseErr PrePost :=
  let line := trimChars line0
  match List.findIdx? (· = '=') line with
  | none => .error .noEquals
  | some index =>
    let lhs := trimChars (line.take index)
    let rhs := trimChars (line.drop (index + 1))
    if lhs = "gas".data then
      match parseI64 rhs with
      | none => .error .gasValue
      | some g => .ok { output with gas := some g }
    else if lhs = "pc".data then
      match strip_prefix_char '@' rhs with
      | some afterAt =>
        let body := trimChars afterAt
        match List.findIdx? (· = '[') body with
        | none => .error .pcNoLBracket
        | some i1 =>
          let label := body.take i1
          let afterL := body.drop (i1 + 1)
          match List.findIdx? (· = ']') afterL with
          | none => .error .pcNoRBracket
          | some i2 =>
            match parseU32 (afterL.take i2) with
            | none => .error .pcBadOffset
            | some offset =>
              if trimChars (afterL.drop (i2 + 1)) ≠ [] then .error .pcJunkAfterBracket
              else .ok { output with pc := some (.byLabel label offset) }
      | none => .error .pcNoAt
    else
      match parse_reg lhs with
      | none => .error .badRegister
      | some r =>
        match parse_immediate rhs with
        | none => .error .badValue
        | some v => .ok { output with regs := output.regs.set r (some v) }

/-- The directive lines of one block, parsed in order into one `PrePost`
(the `parse_pre_post(line, &mut pre/post)` calls of `prepare_input`). -/
def parse_block (lines : List (List Char)) (init : PrePost) : Except ParseErr PrePost :=
  match lines with
  | [] => .ok init
  | l :: rest =>
    match parse_pre_post l init with
    | .error e => .error e
    | .ok out => parse_block rest out

/-- Concrete directive lines used to evaluate the parser: a duplicated
`gas` key, an unknown register, a `pc` value without `@`, a line without
`=`, and a `gas` line overwriting an earlier value. -/
def lineGas1 : List Char := "gas = 1".data

/-- The second `gas` directive of the duplicate-key block. -/
def lineGas2 : List Char := "gas = 2".data

/-- A directive with an unknown register name. -/
def lineBadReg : List Char := "foo = 1".data

/-- A `pc` directive whose value lacks the `@` prefix. -/
def lineBadPc : List Char := "pc = label[0]".data

/-- A directive line without an `=`. -/
def lineNoEq : List Char := "a0 9".data

/-- A `gas` directive used to overwrite an earlier `gas` value. -/
def lineGas7 : List Char := "gas = 7".data

/-- The failure a directive line produces, as a function of the line
alone (the parser's control flow never inspects the accumulated output,
so whether parsing fails cannot depend on previously seen keys). -/
def directive_fail (line0 : List Char) : Option ParseErr :=
  let line := trimChars line0
  match List.findIdx? (· = '=') line with
  | none => some .noEquals
  | some index =>
    let lhs := trimChars (line.take index)
    let rhs := trimChars (line.drop (index + 1))
    if lhs = "gas".data then
      match parseI64 rhs with
      | none => some .gasValue
      | some _ => none
    else if lhs = "pc".data then
      match strip_prefix_char '@' rhs with
      | some afterAt =>
        let body := trimChars afterAt
        match List.findIdx? (· = '[') body with
        | none => some .pcNoLBracket
        | some i1 =>
          let afterL := body.drop (i1 + 1)
          match List.findIdx? (· = ']') afterL with
          | none => some .pcNoRBracket
          | some i2 =>
            match parseU32 (afterL.take i2) with
            | none => some .pcBadOffset
            | some _ =>
              if trimChars (afterL.drop (i2 + 1)) ≠ [] then some .pcJunkAfterBracket
              else none
      | none => some .pcNoAt
    else
      match parse_reg lhs with
      | none => some .badRegister
      | some _ =>
        match parse_immediate rhs with
        | none => some .badValue
        | some _ => none

/-- The terminal-status strings of `prepare_input`. -/
inductive StatusStr
  | halt
  | panic
  | outOfGas
  | pageFault
  | ok
  deriving Repr, DecidableEq

/-- The fatal outcomes of the check section of `prepare_input`. -/
inductive CheckError
  | pcMismatch
  | postCheck
  deriving Repr, DecidableEq

/-- One `eprintln!` of the post-directive comparison section. -/
inductive PostLog
  | regMismatch (index : Nat)
  | gasMismatch
  deriving Repr, DecidableEq

/-- What the (external) execution loop of `prepare_input` produced: the
terminal status, the program counter recorded at the last `Step`
interrupt (initially the entry pc), and `instance.program_counter()`
after the loop. -/
structure ExecOutcome where
  status : StatusStr
  lastStepPc : Nat
  instPc : Nat
  deriving Repr, DecidableEq

/-- An expected register or gas value of the post-directive block
disagrees with the actual result. -/
def post_mismatch (post : PrePost) (expected_regs : List Nat)
    (expected_gas : Int) : Prop :=
  (∃ i, i < 13 ∧ ∃ r, post.regs.getD i none = some r ∧ expected_regs.getD i 0 ≠ r) ∨
  (∃ g, post.gas = some g ∧ expected_gas ≠ g)

/-- Embeds the check section of `prepare_input` (the code from the
execute loop's pc bookkeeping to `found_post_check_errors`): with
`execute` false the final pc is preset to the expected pc and the status
to "ok"; a non-"halt" status re-reads the instance pc; a final-pc mismatch
returns an error before anything else; the post-directive register/gas
comparisons (including their log lines) run only under `execute`, and any
mismatch among them is fatal.  Returns the emitted log lines together
with the result.  `post_check_logs` is the `eprintln!` lines of the
register/gas comparison loops (lines 254–272), which are gated behind
`if execute`. -/
def post_check_logs (execute : Bool) (post : PrePost)
    (expected_regs : List Nat) (expected_gas : Int) : List PostLog :=
  let regLogs :=
    if execute then
      (List.range 13).filterMap fun i =>
        match post.regs.getD i none with
        | some required =>
          if expected_regs.getD i 0 ≠ required then some (PostLog.regMismatch i)
          else none
        | none => none
    else []
  let gasLogs :=
    if execute then
      match post.gas with
      | some post_gas =>
        if expected_gas ≠ post_gas then [PostLog.gasMismatch] else []
      | none => []
    else []
  regLogs ++ gasLogs

def prepare_checks (execute : Bool) (expected_final_pc : Nat)
    (run : ExecOutcome) (post : PrePost) (expected_regs : List Nat)
    (expected_gas : Int) : List PostLog × Except CheckError Unit :=
  let finalPc0 := if execute then run.lastStepPc else expected_final_pc
  let finalStatus := if execute then run.status else StatusStr.ok
  let finalPc := if finalStatus ≠ StatusStr.halt then run.instPc else finalPc0
  if finalPc ≠ expected_final_pc then ([], .error .pcMismatch)
  else
    let logs := post_check_logs execute post expected_regs expected_gas
    if logs ≠ [] then (logs, .error .postCheck) else (logs, .ok ())

end Spectool

namespace PvmShell

/-- Mirrors `enum Status` of `src/pvm-shell/src/lib.rs`. -/
inductive Status
  | Ok
  | Halt
  | Panic
  | Fault
  | Host
  | OutOfGas
  deriving Repr, DecidableEq

/-- The numeric discriminants of `enum Status` (`Ok = 255`, `Halt = 0`, …),
as returned by `getStatus` (`status as u8`). -/
def Status.code : Status → Nat
  | .Ok => 255
  | .Halt => 0
  | .Panic => 1
  | .Fault => 2
  | .Host => 3
  | .OutOfGas => 4

/-- Spec glossary: "Terminal status: Halt, Panic, Fault, or OutOfGas". -/
def Status.isTerminal : Status → Bool
  | .Halt => true
  | .Panic => true
  | .Fault => true
  | .OutOfGas => true
  | _ => false

/-- Mirrors `struct Page { address: u32, length: u32, is_writable: bool }`. -/
structure Page where
  address : Nat
  length : Nat
  is_writable : Bool
  deriving Repr, DecidableEq

/-- Mirrors `struct Chunk { address: u32, data: Vec<u8> }`. -/
structure Chunk where
  address : Nat
  data : List Nat
  deriving Repr, DecidableEq

/-- Embeds `read_u32`: four little-endian bytes starting at `index`.
Out-of-range reads are modelled as zero bytes (the Rust slice would
panic there; no claim exercises that path). -/
def read_u32 (source : List Nat) (index : Nat) : Nat :=
  source.getD index 0 + source.getD (index + 1) 0 * 256 +
    source.getD (index + 2) 0 * 256 ^ 2 + source.getD (index + 3) 0 * 256 ^ 3

/-- Embeds `read_u64`: eight little-endian bytes starting at `index`. -/
def read_u64 (source : List Nat) (index : Nat) : Nat :=
  read_u32 source index + read_u32 source (index + 4) * 256 ^ 4

/-- Embeds `read_pages`: decode consecutive 9-byte records
(u32-LE address, u32-LE length, 1-byte writable flag). -/
def read_pages (page_map : List Nat) : List Page :=
  match page_map with
  | [] => []
  | b :: rest =>
    { address := read_u32 (b :: rest) 0
      length := read_u32 (b :: rest) 4
      is_writable := (b :: rest).getD 8 0 > 0 } :: read_pages ((b :: rest).drop 9)
termination_by page_map.length
decreasing_by
  simp [List.length_drop]
  omega

/-- Embeds `read_chunks`: decode consecutive variable records
(u32-LE address, u32-LE length, then `length` payload bytes). -/
def read_chunks (chunks : List Nat) : List Chunk :=
  match chunks with
  | [] => []
  | b :: rest =>
    let length := read_u32 (b :: rest) 4
    { address := read_u32 (b :: rest) 0
      data := ((b :: rest).drop 8).take length } ::
      read_chunks ((b :: rest).drop (8 + length))
termination_by chunks.length
decreasing_by
  simp [List.length_drop]

/-- The panics `setup_memory` can raise, as explicit error values.  All of
them except the slice-bounds overrun of the chunk copy are the spec's
`ConfigurationError`. -/
inductive MemError
  | stackTwice    -- "Can't set STACK/RW memory twice"
  | roTwice       -- "Can't set RO memory twice"
  | roAddress     -- "Unsupported address of RO data."
  | rwAddress     -- "Unsupported address of RW data."
  | invalidChunk  -- "Invalid chunk!"
  | sliceOob      -- the implicit `copy_from_slice` slice-bounds panic
  deriving Repr, DecidableEq

/-- Spec §7: ConfigurationError covers malformed/duplicate regions, the
fixed-address violation and the orphan chunk — not the slice-bounds panic. -/
def MemError.isConfigurationError : MemError → Bool
  | .sliceOob => false
  | _ => true

/-- The fields of `polkavm_common::program::ProgramParts` that
`setup_memory` reads or writes. -/
structure ProgramParts where
  ro_data_size : Nat := 0
  rw_data_size : Nat := 0
  stack_size : Nat := 0
  ro_data : List Nat := []
  rw_data : List Nat := []
  deriving Repr, DecidableEq

/-- The mutable state of `setup_memory`'s classification loop: the parts
being filled in plus the three `Option` region starts. -/
structure ClassifyState where
  parts : ProgramParts
  ro_start : Option Nat := none
  rw_start : Option Nat := none
  stack_start : Option Nat := none
  deriving Repr, DecidableEq

/-- One iteration of the `for page in pages` classification loop of
`setup_memory`. -/
def classify_step (s : ClassifyState) (page : Page) : Except MemError ClassifyState :=
  if page.is_writable then
    match s.rw_start with
    | some _ =>
      match s.stack_start with
      | some _ => .error .stackTwice
      | none =>
        .ok { s with parts := { s.parts with stack_size := page.length }
                     stack_start := some page.address }
    | none =>
      .ok { s with parts := { s.parts with rw_data_size := page.length }
                   rw_start := some page.address }
  else
    match s.ro_start with
    | some _ => .error .roTwice
    | none =>
      .ok { s with parts := { s.parts with ro_data_size := page.length }
                   ro_start := some page.address }

/-- The classification loop over all page-map records. -/
def classify_loop (s : ClassifyState) : List Page → Except MemError ClassifyState
  | [] => .ok s
  | page :: rest =>
    match classify_step s page with
    | .error e => .error e
    | .ok s' => classify_loop s' rest

/-- Classification of a decoded page map starting from `parts`
(the first half of `setup_memory`). -/
def classify_pages (parts : ProgramParts) (pages : List Page) :
    Except MemError ClassifyState :=
  classify_loop { parts := parts } pages

/-- Embeds the `copy_chunk` closure of `setup_memory`.  Returns whether the
chunk landed in this region together with the updated buffer; the Rust
slice write `into[rel_address .. rel_end]` panics (`sliceOob`) when the
chunk's contents overrun the buffer. -/
def copy_chunk (chunk : Chunk) (start : Option Nat) (size : Nat) (into : List Nat) :
    Except MemError (Bool × List Nat) :=
  match start with
  | none => .ok (false, into)
  | some start =>
    if chunk.address ≥ start then
      let rel_address := chunk.address - start
      if rel_address < size then
        if rel_address + chunk.data.length ≤ into.length then
          .ok (true, Spectool.writeAt into rel_address chunk.data)
        else
          .error .sliceOob
      else
        .ok (false, into)
    else
      .ok (false, into)

/-- The `for chunk in chunks` placement loop of `setup_memory`: each chunk
is offered to the read-only and then the read-write buffer; a chunk landing
in neither is the "Invalid chunk!" panic. -/
def place_chunks (ro_start rw_start : Option Nat) (ro_size rw_size : Nat) :
    List Chunk → List Nat → List Nat → Except MemError (List Nat × List Nat)
  | [], ro_data, rw_data => .ok (ro_data, rw_data)
  | chunk :: rest, ro_data, rw_data =>
    match copy_chunk chunk ro_start ro_size ro_data with
    | .error e => .error e
    | .ok (is_in_ro, ro_data) =>
      match copy_chunk chunk rw_start rw_size rw_data with
      | .error e => .error e
      | .ok (is_in_rw, rw_data) =>
        if ¬is_in_ro ∧ ¬is_in_rw then .error .invalidChunk
        else place_chunks ro_start rw_start ro_size rw_size rest ro_data rw_data

/-- The two fixed-protocol-address checks of `setup_memory`: a declared
read-only region must sit at `0x10000` and a declared read-write region at
`0x20000`; the read-only check runs first. -/
def check_addresses (ro_start rw_start : Option Nat) : Except MemError Unit :=
  match ro_start with
  | some a =>
    if a = 0x10000 then
      match rw_start with
      | some b => if b = 0x20000 then .ok () else .error .rwAddress
      | none => .ok ()
    else .error .roAddress
  | none =>
    match rw_start with
    | some b => if b = 0x20000 then .ok () else .error .rwAddress
    | none => .ok ()

/-- Embeds `setup_memory` on decoded records: classify the page map,
allocate zero-filled region buffers, check the fixed protocol addresses
(RO at `0x10000`, RW at `0x20000`), place every chunk, and only then
install the buffers into the parts. -/
def setup_memory_decoded (parts : ProgramParts) (pages : List Page)
    (chunks : List Chunk) : Except MemError ProgramParts :=
  match classify_pages parts pages with
  | .error e => .error e
  | .ok s =>
    let ro_data := List.replicate s.parts.ro_data_size 0
    let rw_data := List.replicate s.parts.rw_data_size 0
    match check_addresses s.ro_start s.rw_start with
    | .error e => .error e
    | .ok _ =>
      match place_chunks s.ro_start s.rw_start s.parts.ro_data_size
          s.parts.rw_data_size chunks ro_data rw_data with
      | .error e => .error e
      | .ok (ro_data, rw_data) =>
        .ok { s.parts with ro_data := ro_data, rw_data := rw_data }

/-- Embeds `setup_memory` on the raw byte streams. -/
def setup_memory (parts : ProgramParts) (page_map chunks : List Nat) :
    Except MemError ProgramParts :=
  setup_memory_decoded parts (read_pages page_map) (read_chunks chunks)

/-- The machine-visible part of an instance: the 13-entry register file,
the program counter (`none` when the machine has not yet reported one) and
the gas counter. -/
structure Core where
  regs : List Nat
  pc : Option Nat
  gas : Int
  deriving Repr, DecidableEq

/-- Mirrors `polkavm::InterruptKind`. -/
inductive Interrupt
  | Finished
  | Trap
  | Ecalli (n : Nat)
  | Segfault (pageAddress : Nat)
  | NotEnoughGas
  | Step
  deriving Repr, DecidableEq

/-- The possible effects of executing one decoded instruction.  The
instruction semantics themselves are the out-of-scope decoder/executor, so
they stay an abstract parameter `exec : Core → StepOutcome` throughout. -/
inductive StepOutcome
  | advance (next : Core)
  | hostCall (n : Nat) (next : Core)
  | finished
  | trap
  | segfault (addr : Nat)
  | outOfGas

/-- Modelled from the spec: the `polkavm::RawInstance` interpreter is an
external collaborator ("the virtual machine's instruction decoder/executor"
is out of scope, §1).  Besides the core it remembers the terminal interrupt
once one has occurred. -/
structure RawInstance where
  core : Core
  finalInterrupt : Option Interrupt := none
  deriving Repr, DecidableEq

/-- Modelled from the spec: `RawInstance::run` under step tracing.  §4.2:
"step-tracing enabled (each run advances exactly one decoded instruction
before yielding)"; §8: after a terminal status "the same terminal status
and unchanged pc are returned on every further call until the next
`reset`".  A host-call interrupt is not terminal at the machine level. -/
def RawInstance.run (exec : Core → StepOutcome) (inst : RawInstance) :
    Interrupt × RawInstance :=
  match inst.finalInterrupt with
  | some i => (i, inst)
  | none =>
    match exec inst.core with
    | .advance c => (.Step, { core := c })
    | .hostCall n c => (.Ecalli n, { core := c })
    | .finished => (.Finished, { inst with finalInterrupt := some .Finished })
    | .trap => (.Trap, { inst with finalInterrupt := some .Trap })
    | .segfault a => (.Segfault a, { inst with finalInterrupt := some (.Segfault a) })
    | .outOfGas => (.NotEnoughGas, { inst with finalInterrupt := some .NotEnoughGas })

/-- The process-wide statics `PVM`, `STATUS` and `EXIT_ARG` of
`src/pvm-shell/src/lib.rs`.  `pvmPoisoned` models a poisoned `PVM` lock,
in which case `with_pvm` falls back to its default. -/
structure ShellState where
  pvm : Option RawInstance
  status : Status
  exitArg : Nat
  pvmPoisoned : Bool
  deriving Repr, DecidableEq

/-- The state of the statics before the first reset. -/
def initialShell : ShellState :=
  { pvm := none, status := .Ok, exitArg := 0, pvmPoisoned := false }

/-- Embeds `with_pvm`: run `f` on the live instance, or return `default`
when there is no session or the lock is poisoned. -/
def with_pvm (st : ShellState) (f : RawInstance → α × RawInstance) (default : α) :
    α × ShellState :=
  if st.pvmPoisoned then (default, st)
  else
    match st.pvm with
    | none => (default, st)
    | some inst =>
      let (r, inst') := f inst
      (r, { st with pvm := some inst' })

/-- Embeds `nextStep`: run the machine once, translate the interrupt into
a `(can_continue, Status)` pair (recording the host-call number or the
faulting page address in `EXIT_ARG`), store the status, and return the
continue flag. -/
def nextStep (exec : Core → StepOutcome) (st : ShellState) : Bool × ShellState :=
  let (res, st') := with_pvm st
    (fun pvm =>
      let (intr, pvm') := pvm.run exec
      match intr with
      | .Finished => ((false, Status.Halt, (none : Option Nat)), pvm')
      | .Trap => ((false, Status.Panic, none), pvm')
      | .Ecalli call => ((false, Status.Host, some call), pvm')
      | .Segfault page => ((false, Status.Fault, some page), pvm')
      | .NotEnoughGas => ((false, Status.OutOfGas, none), pvm')
      | .Step => ((true, Status.Ok, none), pvm'))
    (false, Status.Panic, none)
  (res.1, { st' with status := res.2.1, exitArg := res.2.2.getD st'.exitArg })

/-- The 13 initial register values decoded from the little-endian byte
block (`read_u64` at offsets `i * BYTES_PER_REG`). -/
def regs_from_bytes (registers : List Nat) : List Nat :=
  (List.range 13).map fun i => read_u64 registers (i * 8)

/-- The fresh core built by `resetGenericWithMemory`: registers from the
byte block, next program counter 0, gas from the argument. -/
def initial_core (registers : List Nat) (gas : Int) : Core :=
  { regs := regs_from_bytes registers, pc := some 0, gas := gas }

/-- Embeds `resetGenericWithMemory` on decoded page-map/chunk records: set
up the memory (a panic aborts before any shared state is touched), build a
fresh instance, install it as the live session, and immediately run one
step.  Storing the new instance panics if the `PVM` lock is poisoned, so
that case also leaves the state unchanged. -/
def resetGenericWithMemory_decoded (exec : Core → StepOutcome) (st : ShellState)
    (registers : List Nat) (pages : List Page) (chunks : List Chunk)
    (gas : Int) : ShellState :=
  match setup_memory_decoded {} pages chunks with
  | .error _ => st
  | .ok _parts =>
    if st.pvmPoisoned then st
    else
      (nextStep exec { st with pvm := some { core := initial_core registers gas } }).2

/-- Embeds `resetGenericWithMemory` on the raw byte streams. -/
def resetGenericWithMemory (exec : Core → StepOutcome) (st : ShellState)
    (registers : List Nat) (page_map chunks : List Nat) (gas : Int) : ShellState :=
  resetGenericWithMemory_decoded exec st registers (read_pages page_map)
    (read_chunks chunks) gas

/-- The eight little-endian bytes of a register value
(`u64::to_le_bytes`). -/
def u64_le_bytes (v : Nat) : List Nat :=
  [v % 256, v / 256 % 256, v / 256 ^ 2 % 256, v / 256 ^ 3 % 256,
   v / 256 ^ 4 % 256, v / 256 ^ 5 % 256, v / 256 ^ 6 % 256, v / 256 ^ 7 % 256]

/-- Embeds `getRegisters`: a zero block of `13 * 8` bytes, filled from the
register file when a session is live. -/
def getRegisters (st : ShellState) : List Nat :=
  (with_pvm st
    (fun pvm =>
      ((List.range 13).flatMap fun i => u64_le_bytes (pvm.core.regs.getD i 0), pvm))
    (List.replicate (13 * 8) 0)).1

/-- Embeds `getProgramCounter`:
`pvm.program_counter().map(|x| x.0).unwrap_or(0)`, default 0. -/
def getProgramCounter (st : ShellState) : Nat :=
  (with_pvm st (fun pvm => (pvm.core.pc.getD 0, pvm)) 0).1

/-- Embeds `getGasLeft`: the live gas counter, default 0. -/
def getGasLeft (st : ShellState) : Int :=
  (with_pvm st (fun pvm => (pvm.core.gas, pvm)) 0).1

/-- Embeds `getStatus`: the stored `STATUS` static as its `u8` code. -/
def getStatus (st : ShellState) : Nat :=
  st.status.code

/-- Embeds `getExitArg`: the stored `EXIT_ARG` static. -/
def getExitArg (st : ShellState) : Nat :=
  st.exitArg

/-- How many more non-writable records the classification loop accepts
from state `s`. -/
def roCap (s : ClassifyState) : Nat :=
  match s.ro_start with
  | none => 1
  | some _ => 0

/-- How many more writable records the classification loop accepts from
state `s`. -/
def wCap (s : ClassifyState) : Nat :=
  match s.rw_start, s.stack_start with
  | none, none => 2
  | none, some _ => 1
  | some _, none => 1
  | some _, some _ => 0

/-- The non-writable records of a page map. -/
def nwPages (pages : List Page) : List Page :=
  pages.filter fun p => !p.is_writable

/-- The writable records of a page map. -/
def wPages (pages : List Page) : List Page :=
  pages.filter fun p => p.is_writable

/-- The index into the writable records that would fill the stack slot
when starting from state `s`. -/
def stackIdx (s : ClassifyState) : Nat :=
  match s.rw_start with
  | none => 1
  | some _ => 0

/-- The state the classification loop ends in when it succeeds, as a
function of the starting state and the filtered record lists: the head
non-writable record fills the read-only slot, writable record 0 the
read-write slot and writable record `stackIdx` the stack slot, each only
if still empty in `s`. -/
def classify_expected (s : ClassifyState) (pages : List Page) : ClassifyState :=
  { parts :=
      { s.parts with
        ro_data_size :=
          match s.ro_start, (nwPages pages).head? with
          | none, some p => p.length
          | _, _ => s.parts.ro_data_size
        rw_data_size :=
          match s.rw_start, (wPages pages).head? with
          | none, some p => p.length
          | _, _ => s.parts.rw_data_size
        stack_size :=
          match s.stack_start, (wPages pages).get? (stackIdx s) with
          | none, some p => p.length
          | _, _ => s.parts.stack_size }
    ro_start :=
      match s.ro_start with
      | some a => some a
      | none => (nwPages pages).head?.map Page.address
    rw_start :=
      match s.rw_start with
      | some a => some a
      | none => (wPages pages).head?.map Page.address
    stack_start :=
      match s.stack_start with
      | some a => some a
      | none => ((wPages pages).get? (stackIdx s)).map Page.address }

/-- Whether a chunk's start address falls inside the region at `start` of
length `size` (the containment test of `copy_chunk`). -/
def chunk_in_region (chunk : Chunk) (start : Option Nat) (size : Nat) : Bool :=
  match start with
  | none => false
  | some s => decide (s ≤ chunk.address) && decide (chunk.address - s < size)

/-- Whether a chunk either misses the region entirely or fits inside it
(so that the `copy_chunk` slice write cannot overrun). -/
def chunk_fits (chunk : Chunk) (start : Option Nat) (size : Nat) : Bool :=
  match start with
  | none => true
  | some s =>
    !(decide (s ≤ chunk.address) && decide (chunk.address - s < size)) ||
      decide (chunk.address - s + chunk.data.length ≤ size)

/-- The interrupts that `RawInstance.run` records as final (the machine
cannot step past them); `Ecalli` and `Step` are resumable. -/
def Interrupt.isMachineTerminal : Interrupt → Bool
  | .Finished => true
  | .Trap => true
  | .Segfault _ => true
  | .NotEnoughGas => true
  | _ => false

/-- A concrete one-instruction program for the C3 witness: from pc 0 the
machine advances once, from anywhere else it finishes. -/
def c3exec : Core → StepOutcome := fun c =>
  if c.pc = some 0 then
    .advance { regs := c.regs, pc := some 1, gas := c.gas }
  else
    .finished

end PvmShell

namespace Spectool

/-- Generalised round trip: applying the chunks extracted from `B` at
running address `a + off` on top of a prefix `buf` of length `off`
reconstructs `buf ++ B`. -/
theorem extract_apply_general (n : Nat) :
    ∀ (B : List Nat), B.length ≤ n → ∀ (a off : Nat) (buf : List Nat), buf.length = off →
    List.foldl (fun acc c => writeAt acc (c.address - a) c.contents)
      (buf ++ List.replicate B.length 0) (extract_chunks (a + off) B) = buf ++ B := by
  induction n with
  | zero =>
    intro B hB a off buf hbuf
    have : B = [] := List.eq_nil_of_length_eq_zero (Nat.le_zero.mp hB)
    subst this
    simp [extract_chunks]
  | succ n ih =>
    intro B hB a off buf hbuf
    match B with
    | [] => simp [extract_chunks]
    | b :: rest =>
      by_cases hb : b = 0
      · subst hb
        rw [show extract_chunks (a + off) (0 :: rest) = extract_chunks (a + off + 1) rest by
              simp [extract_chunks]]
        have h1 : (0 :: rest).length = rest.length + 1 := rfl
        rw [h1, List.replicate_succ, List.append_cons]
        have h2 : a + off + 1 = a + (off + 1) := by omega
        rw [h2]
        have h3 := ih rest (by simpa using hB) a (off + 1) (buf ++ [0])
          (by simp [hbuf])
        rw [h3, ← List.append_cons]
      · -- non-zero head: the source emits one chunk for the maximal run
        have hunfold : extract_chunks (a + off) (b :: rest) =
            { address := a + off,
              contents := List.takeWhile (· ≠ 0) (b :: rest) } ::
              extract_chunks (a + off + (List.takeWhile (· ≠ 0) (b :: rest)).length)
                (List.dropWhile (· ≠ 0) (b :: rest)) := by
          conv_lhs => rw [extract_chunks]
          simp [hb]
        set run := List.takeWhile (· ≠ 0) (b :: rest) with hrun
        set dr := List.dropWhile (· ≠ 0) (b :: rest) with hdr
        have hsplit : run ++ dr = b :: rest := List.takeWhile_append_dropWhile _ _
        have hlen : (b :: rest).length = run.length + dr.length := by
          rw [← hsplit, List.length_append]
        rw [hunfold, List.foldl_cons]
        have hwrite : writeAt (buf ++ List.replicate (b :: rest).length 0)
            (a + off - a) run = (buf ++ run) ++ List.replicate dr.length 0 := by
          have hoff : a + off - a = off := by omega
          rw [hoff, writeAt]
          have htake : (buf ++ List.replicate (b :: rest).length 0).take off = buf := by
            rw [← hbuf]; exact List.take_left _ _
          have hdrop : (buf ++ List.replicate (b :: rest).length 0).drop
              (off + run.length) = List.replicate dr.length 0 := by
            rw [← hbuf, List.drop_append, hlen, List.drop_replicate]
            congr 1
            omega
          rw [htake, hdrop, List.append_assoc]
        rw [hwrite]
        have hdrlen : dr.length ≤ n := by
          have heq : dr = List.dropWhile (· ≠ 0) rest := by
            rw [hdr, List.dropWhile_cons]
            simp [hb]
          have h4 := (List.dropWhile_sublist (fun x => decide (x ≠ 0)) (l := rest)).length_le
          rw [heq]
          simp only [List.length_cons] at hB
          calc (List.dropWhile (· ≠ 0) rest).length ≤ rest.length := h4
            _ ≤ n := by omega
        have h5 : a + off + run.length = a + (off + run.length) := by omega
        rw [hlen] at *
        rw [h5]
        have h6 := ih dr hdrlen a (off + run.length) (buf ++ run)
          (by simp [hbuf])
        rw [h6, List.append_assoc, hsplit]

/-- A buffer of zero bytes yields no chunks. -/
theorem extract_chunks_all_zero (B : List Nat) :
    ∀ a, (∀ b ∈ B, b = 0) → extract_chunks a B = [] := by
  induction B with
  | nil => intro a _; simp [extract_chunks]
  | cons b rest ih =>
    intro a hz
    have hb : b = 0 := hz b (by simp)
    subst hb
    rw [show extract_chunks a (0 :: rest) = extract_chunks (a + 1) rest by
          simp [extract_chunks]]
    exact ih (a + 1) (fun x hx => hz x (by simp [hx]))

/-- A non-empty buffer of non-zero bytes yields a single chunk covering
the whole buffer. -/
theorem extract_chunks_all_nonzero (B : List Nat) (a : Nat) (hne : B ≠ [])
    (hnz : ∀ b ∈ B, b ≠ 0) : extract_chunks a B = [{ address := a, contents := B }] := by
  match B with
  | [] => exact absurd rfl hne
  | b :: rest =>
    have hb : b ≠ 0 := hnz b (by simp)
    have htake : List.takeWhile (· ≠ 0) (b :: rest) = b :: rest := by
      rw [List.takeWhile_eq_self_iff]
      intro x hx
      simpa using hnz x hx
    have hdrop : List.dropWhile (· ≠ 0) (b :: rest) = [] := by
      rw [List.dropWhile_eq_nil_iff]
      intro x hx
      simpa using hnz x hx
    conv_lhs => rw [extract_chunks]
    simp only [hb, if_false, htake, hdrop]
    simp [extract_chunks]

/-- C1.  Sparse-chunk round trip: for every byte buffer `B` and base
address `a`, zero-filling a buffer of length `|B|` and copying each chunk
produced by `extract_chunks a B` at its relative offset
(`chunk.address - a`) reconstructs `B` exactly; an all-zero `B` yields the
empty chunk list and an all-nonzero `B` yields a single chunk covering the
whole buffer. -/
theorem c1_sparse_chunk_round_trip (B : List Nat) (a : Nat) :
    apply_chunks a B.length (extract_chunks a B) = B ∧
    ((∀ b ∈ B, b = 0) → extract_chunks a B = []) ∧
    (B ≠ [] → (∀ b ∈ B, b ≠ 0) →
      extract_chunks a B = [{ address := a, contents := B }]) := by
  refine ⟨?_, extract_chunks_all_zero B a, extract_chunks_all_nonzero B a⟩
  have h := extract_apply_general B.length B le_rfl a 0 [] rfl
  simpa [apply_chunks] using h

/-- C1 witness: the round trip evaluated at concrete buffers, with every
hypothesis discharged at a concrete input. -/
theorem c1_sparse_chunk_round_trip_witness :
    apply_chunks 5 4 (extract_chunks 5 [0, 1, 2, 0]) = [0, 1, 2, 0] ∧
    extract_chunks 9 [0, 0] = [] ∧
    extract_chunks 3 [4, 5] = [{ address := 3, contents := [4, 5] }] := by
  refine ⟨?_, ?_, ?_⟩
  · have h := (c1_sparse_chunk_round_trip [0, 1, 2, 0] 5).1
    simpa using h
  · exact (c1_sparse_chunk_round_trip [0, 0] 9).2.1 (by decide)
  · exact (c1_sparse_chunk_round_trip [4, 5] 3).2.2 (by decide) (by decide)

/-- The parser result agrees with the line-local failure classifier: a
line that classifies as failing fails with that error for every
accumulated output, and a line that classifies as succeeding succeeds for
every accumulated output. -/
theorem parse_pre_post_fail_spec (line : List Char) (out : PrePost) :
    match directive_fail line with
    | some e => parse_pre_post line out = .error e
    | none => ∃ p, parse_pre_post line out = .ok p := by
  unfold directive_fail parse_pre_post
  cases hfind : List.findIdx? (· = '=') (trimChars line) with
  | none => simp [hfind]
  | some index =>
    simp only [hfind]
    by_cases hgas : trimChars ((trimChars line).take index) = "gas".data
    · rw [if_pos hgas, if_pos hgas]
      cases hi : parseI64 (trimChars ((trimChars line).drop (index + 1))) <;> simp
    · rw [if_neg hgas, if_neg hgas]
      by_cases hpc : trimChars ((trimChars line).take index) = "pc".data
      · rw [if_pos hpc, if_pos hpc]
        cases hat : strip_prefix_char '@' (trimChars ((trimChars line).drop (index + 1))) with
        | none => simp [hat]
        | some afterAt =>
          simp only [hat]
          cases h1 : List.findIdx? (· = '[') (trimChars afterAt) with
          | none => simp
          | some i1 =>
            simp only []
            cases h2 : List.findIdx? (· = ']') ((trimChars afterAt).drop (i1 + 1)) with
            | none => simp
            | some i2 =>
              simp only []
              cases h3 : parseU32 (((trimChars afterAt).drop (i1 + 1)).take i2) with
              | none => simp
              | some offset =>
                simp only []
                by_cases h4 : trimChars ((trimChars afterAt).drop (i1 + 1 + (i2 + 1))) = []
                · simp [h4]
                · simp [h4]
      · rw [if_neg hpc, if_neg hpc]
        cases hr : parse_reg (trimChars ((trimChars line).take index)) with
        | none => simp [hr]
        | some r =>
          simp only [hr]
          cases hv : parse_immediate (trimChars ((trimChars line).drop (index + 1))) <;> simp

/-- C7 counterexample: a block that sets `gas` twice parses successfully
and silently keeps the second value, so "for every block containing the
same key twice, parsing fails rather than silently keeping one of the two
values" is false of the code. -/
theorem c7_duplicate_key_counterexample :
    parse_block [lineGas1, lineGas2] {} = .ok { gas := some 2 } := by
  decide

/-- C7 (amended).  Directive parsing fails exactly on line-local
conditions — failure coincides with the line classifier `directive_fail`
and therefore cannot depend on previously parsed keys, so duplicates
never fail; a missing `=` is a ParseError, a `pc` value without `@` is a
ParseError, an unknown register name is a ParseError, and a repeated
`gas` key silently overwrites the accumulated value. -/
theorem c7_parse_error_conditions (line : List Char) (out : PrePost) :
    (∀ e, parse_pre_post line out = .error e ↔ directive_fail line = some e) ∧
    (List.findIdx? (· = '=') (trimChars line) = none →
      parse_pre_post line out = .error .noEquals) ∧
    (∀ index, List.findIdx? (· = '=') (trimChars line) = some index →
      (trimChars ((trimChars line).take index) ≠ "gas".data →
        trimChars ((trimChars line).take index) ≠ "pc".data →
        parse_reg (trimChars ((trimChars line).take index)) = none →
        parse_pre_post line out = .error .badRegister) ∧
      (trimChars ((trimChars line).take index) = "pc".data →
        strip_prefix_char '@' (trimChars ((trimChars line).drop (index + 1))) = none →
        parse_pre_post line out = .error .pcNoAt) ∧
      (trimChars ((trimChars line).take index) = "gas".data →
        ∀ g, parseI64 (trimChars ((trimChars line).drop (index + 1))) = some g →
        parse_pre_post line out = .ok { out with gas := some g })) := by
  have hs := parse_pre_post_fail_spec line out
  refine ⟨?_, ?_, ?_⟩
  · intro e
    constructor
    · intro h
      cases hd : directive_fail line with
      | some e' =>
        rw [hd] at hs
        rw [h] at hs
        cases hs
        exact rfl
      | none =>
        rw [hd] at hs
        obtain ⟨p, hp⟩ := hs
        rw [h] at hp
        cases hp
    · intro h
      rw [h] at hs
      exact hs
  · intro h
    unfold parse_pre_post
    simp [h]
  · intro index hfind
    refine ⟨?_, ?_, ?_⟩
    · intro hgas hpc hreg
      unfold parse_pre_post
      simp only [hfind]
      rw [if_neg hgas, if_neg hpc]
      simp [hreg]
    · intro hpc hat
      unfold parse_pre_post
      simp only [hfind]
      have hgas : trimChars ((trimChars line).take index) ≠ "gas".data := by
        rw [hpc]
        decide
      rw [if_neg hgas, if_pos hpc]
      simp [hat]
    · intro hgas g hg
      unfold parse_pre_post
      simp only [hfind]
      rw [if_pos hgas]
      simp [hg]

/-- C7 witness: the amended failure conditions evaluated on concrete
directive lines — an unknown register fails, a `pc` value without `@`
fails, a missing `=` fails, and a `gas` directive overwrites an already
set `gas` value. -/
theorem c7_parse_error_conditions_witness :
    parse_pre_post lineBadReg {} = .error .badRegister ∧
    parse_pre_post lineBadPc {} = .error .pcNoAt ∧
    parse_pre_post lineNoEq {} = .error .noEquals ∧
    parse_pre_post lineGas7 { gas := some 1 } = .ok { gas := some 7 } := by
  refine ⟨?_, ?_, ?_, ?_⟩
  · exact ((c7_parse_error_conditions lineBadReg {}).2.2 4 (by decide)).1
      (by decide) (by decide) (by decide)
  · exact ((c7_parse_error_conditions lineBadPc {}).2.2 3
      (by decide)).2.1 (by decide) (by decide)
  · exact (c7_parse_error_conditions lineNoEq {}).2.1 (by decide)
  · exact ((c7_parse_error_conditions lineGas7 { gas := some 1 }).2.2 4
      (by decide)).2.2 (by decide) 7 (by decide)

/-- One register's post-check log entry is emitted exactly when that
register has a post-directive expectation that disagrees with the actual
value. -/
theorem reg_log_entry (post : PrePost) (expected_regs : List Nat) (i : Nat) :
    ((match post.regs.getD i none with
      | some required =>
        if expected_regs.getD i 0 ≠ required then some (PostLog.regMismatch i)
        else none
      | none => none) ≠ none) ↔
    ∃ r, post.regs.getD i none = some r ∧ expected_regs.getD i 0 ≠ r := by
  cases hm : post.regs.getD i none with
  | none => simp
  | some r =>
    by_cases hv : expected_regs.getD i 0 ≠ r
    · simp [hv]
    · simp [hv]

/-- The gas post-check log entry is emitted exactly when a gas
expectation disagrees with the actual gas. -/
theorem gas_log_entry (post : PrePost) (expected_gas : Int) :
    ((match post.gas with
      | some post_gas =>
        if expected_gas ≠ post_gas then [PostLog.gasMismatch] else []
      | none => []) ≠ []) ↔
    ∃ g, post.gas = some g ∧ expected_gas ≠ g := by
  cases hg : post.gas with
  | none => simp
  | some g =>
    by_cases hv : expected_gas ≠ g
    · simp [hv]
    · simp [hv]

/-- With `execute` false the comparison section logs nothing at all. -/
theorem post_check_logs_false (post : PrePost) (expected_regs : List Nat)
    (expected_gas : Int) :
    post_check_logs false post expected_regs expected_gas = [] := rfl

/-- With `execute` true the comparison section logs something exactly
when a post-directive expectation disagrees with the actual results. -/
theorem post_logs_iff (post : PrePost) (expected_regs : List Nat)
    (expected_gas : Int) :
    post_check_logs true post expected_regs expected_gas ≠ [] ↔
    post_mismatch post expected_regs expected_gas := by
  have hval : post_check_logs true post expected_regs expected_gas =
      ((List.range 13).filterMap fun i =>
        match post.regs.getD i none with
        | some required =>
          if expected_regs.getD i 0 ≠ required then some (PostLog.regMismatch i)
          else none
        | none => none) ++
      (match post.gas with
       | some post_gas =>
         if expected_gas ≠ post_gas then [PostLog.gasMismatch] else []
       | none => []) := rfl
  rw [hval, Ne, List.append_eq_nil, not_and_or, post_mismatch]
  constructor
  · intro h
    rcases h with h | h
    · left
      rw [List.filterMap_eq_nil_iff] at h
      push_neg at h
      obtain ⟨i, hi, hne⟩ := h
      obtain ⟨r, hm, hv⟩ := (reg_log_entry post expected_regs i).mp hne
      exact ⟨i, List.mem_range.mp hi, r, hm, hv⟩
    · right
      exact (gas_log_entry post expected_gas).mp h
  · intro h
    rcases h with ⟨i, hi, r, hm, hv⟩ | ⟨g, hg, hv⟩
    · left
      rw [List.filterMap_eq_nil_iff]
      intro hall
      have hzero := hall i (List.mem_range.mpr hi)
      exact (reg_log_entry post expected_regs i).mpr ⟨r, hm, hv⟩ hzero
    · right
      exact (gas_log_entry post expected_gas).mpr ⟨g, hg, hv⟩

/-- C8 counterexample: with `execute` false and a post-directive register
expectation that disagrees with the actual value, the check section emits
no log line at all (and no error), so "a mismatch … is logged always (for
execute true and execute false alike)" is false of the code. -/
theorem c8_not_logged_counterexample :
    prepare_checks false 7 { status := .panic, lastStepPc := 0, instPc := 7 }
      { regs := (List.replicate 13 (none : Option Nat)).set 0 (some 5) } [6] 0 =
      ([], .ok ()) ∧
    ((List.replicate 13 (none : Option Nat)).set 0 (some 5)).getD 0 none = some 5 ∧
    (6 : Nat) ≠ 5 := by
  refine ⟨by decide, by decide, by decide⟩

/-- C8 (amended).  The final-pc comparison is fatal whatever the
`execute` flag is; the post-directive register/gas comparisons — their
log lines included — run only when `execute` is true, and exactly then a
mismatch is both logged and escalated to a fatal error. -/
theorem c8_post_check_escalation (execute : Bool) (expected_final_pc : Nat)
    (run : ExecOutcome) (post : PrePost) (expected_regs : List Nat)
    (expected_gas : Int) :
    (execute = false → run.instPc ≠ expected_final_pc →
      prepare_checks execute expected_final_pc run post expected_regs
        expected_gas = ([], .error .pcMismatch)) ∧
    (execute = true → run.status ≠ .halt → run.instPc ≠ expected_final_pc →
      prepare_checks execute expected_final_pc run post expected_regs
        expected_gas = ([], .error .pcMismatch)) ∧
    (execute = true → run.status = .halt → run.lastStepPc ≠ expected_final_pc →
      prepare_checks execute expected_final_pc run post expected_regs
        expected_gas = ([], .error .pcMismatch)) ∧
    (execute = false →
      (prepare_checks execute expected_final_pc run post expected_regs
        expected_gas).1 = [] ∧
      (prepare_checks execute expected_final_pc run post expected_regs
        expected_gas).2 ≠ .error .postCheck) ∧
    (execute = true → run.status = .halt → run.lastStepPc = expected_final_pc →
      (((prepare_checks execute expected_final_pc run post expected_regs
          expected_gas).1 ≠ [] ↔
        post_mismatch post expected_regs expected_gas) ∧
       ((prepare_checks execute expected_final_pc run post expected_regs
          expected_gas).2 = .error .postCheck ↔
        post_mismatch post expected_regs expected_gas))) := by
  refine ⟨?_, ?_, ?_, ?_, ?_⟩
  · intro hex hne
    subst hex
    simp [prepare_checks, hne]
  · intro hex hst hne
    subst hex
    simp [prepare_checks, hst, hne]
  · intro hex hst hne
    subst hex
    simp [prepare_checks, hst, hne]
  · intro hex
    subst hex
    have hform : prepare_checks false expected_final_pc run post expected_regs
        expected_gas = ([], .error .pcMismatch) ∨
        prepare_checks false expected_final_pc run post expected_regs
          expected_gas = ([], .ok ()) := by
      by_cases hne : run.instPc ≠ expected_final_pc
      · left
        simp [prepare_checks, hne]
      · right
        simp [prepare_checks, hne, post_check_logs_false]
    rcases hform with h | h <;> rw [h] <;> exact ⟨rfl, by simp⟩
  · intro hex hst hpc
    subst hex
    have hform : prepare_checks true expected_final_pc run post expected_regs
        expected_gas =
        (if post_check_logs true post expected_regs expected_gas ≠ [] then
          (post_check_logs true post expected_regs expected_gas,
            .error .postCheck)
         else
          (post_check_logs true post expected_regs expected_gas, .ok ())) := by
      simp [prepare_checks, hst, hpc]
    rw [hform]
    by_cases hm : post_mismatch post expected_regs expected_gas
    · have hlogs := (post_logs_iff post expected_regs expected_gas).mpr hm
      rw [if_pos hlogs]
      exact ⟨iff_of_true hlogs hm, iff_of_true rfl hm⟩
    · have hlogs : ¬post_check_logs true post expected_regs expected_gas ≠ [] :=
        fun hcon => hm ((post_logs_iff post expected_regs expected_gas).mp hcon)
      rw [if_neg hlogs]
      exact ⟨iff_of_false hlogs hm, iff_of_false (by simp) hm⟩

/-- C8 witness: with `execute` false a stray instance pc is fatal, and
with `execute` true a post-register mismatch is escalated to the
post-check error. -/
theorem c8_post_check_escalation_witness :
    prepare_checks false 3 { status := .ok, lastStepPc := 0, instPc := 9 } {}
      [] 0 = ([], .error .pcMismatch) ∧
    ((prepare_checks true 3 { status := .halt, lastStepPc := 3, instPc := 0 }
        { regs := (List.replicate 13 (none : Option Nat)).set 0 (some 5) }
        [6] 0).2 = .error .postCheck ↔
      post_mismatch
        { regs := (List.replicate 13 (none : Option Nat)).set 0 (some 5) }
        [6] 0) := by
  constructor
  · exact (c8_post_check_escalation false 3
      { status := .ok, lastStepPc := 0, instPc := 9 } {} [] 0).1 rfl (by decide)
  · exact ((c8_post_check_escalation true 3
      { status := .halt, lastStepPc := 3, instPc := 0 }
      { regs := (List.replicate 13 (none : Option Nat)).set 0 (some 5) }
      [6] 0).2.2.2.2 rfl rfl rfl).2

end Spectool

namespace PvmShell

/-- The classification loop succeeds exactly when the record counts fit in
the remaining region slots. -/
theorem classify_loop_ok_iff : ∀ (pages : List Page) (s : ClassifyState),
    (∃ r, classify_loop s pages = .ok r) ↔
      (nwPages pages).length ≤ roCap s ∧ (wPages pages).length ≤ wCap s := by
  intro pages
  induction pages with
  | nil => intro s; simp [classify_loop, nwPages, wPages]
  | cons p rest ih =>
    intro s
    cases hw : p.is_writable with
    | true =>
      cases hrw : s.rw_start with
      | none =>
        cases hst : s.stack_start with
        | none =>
          simp only [classify_loop, classify_step, hw, hrw, if_true]
          rw [ih]
          simp [nwPages, wPages, List.filter_cons, hw, roCap, wCap, hrw, hst]
        | some b =>
          simp only [classify_loop, classify_step, hw, hrw, if_true]
          rw [ih]
          simp [nwPages, wPages, List.filter_cons, hw, roCap, wCap, hrw, hst]
      | some a =>
        cases hst : s.stack_start with
        | none =>
          simp only [classify_loop, classify_step, hw, hrw, hst, if_true]
          rw [ih]
          simp [nwPages, wPages, List.filter_cons, hw, roCap, wCap, hrw, hst]
        | some b =>
          simp only [classify_loop, classify_step, hw, hrw, hst, if_true]
          simp [nwPages, wPages, List.filter_cons, hw, wCap, hrw, hst]
    | false =>
      cases hro : s.ro_start with
      | none =>
        simp only [classify_loop, classify_step, hw, Bool.false_eq_true, if_false, hro]
        rw [ih]
        simp [nwPages, wPages, List.filter_cons, hw, roCap, wCap, hro]
      | some a =>
        simp only [classify_loop, classify_step, hw, Bool.false_eq_true, if_false, hro]
        simp [nwPages, wPages, List.filter_cons, hw, roCap, hro]

/-- The empty page map leaves the classification state unchanged. -/
theorem classify_expected_nil (s : ClassifyState) : classify_expected s [] = s := by
  obtain ⟨⟨rds, wds, ss, rod, rwd⟩, ro, rw, st⟩ := s
  cases ro <;> cases rw <;> cases st <;>
    simp [classify_expected, nwPages, wPages, stackIdx]

/-- On success the classification loop ends in exactly the state described
by `classify_expected`. -/
theorem classify_loop_ok_eq : ∀ (pages : List Page) (s r : ClassifyState),
    classify_loop s pages = .ok r → r = classify_expected s pages := by
  intro pages
  induction pages with
  | nil =>
    intro s r h
    simp only [classify_loop] at h
    cases h
    rw [classify_expected_nil]
  | cons p rest ih =>
    intro s r h
    cases hw : p.is_writable with
    | true =>
      cases hrw : s.rw_start with
      | none =>
        simp only [classify_loop, classify_step, hw, hrw, if_true] at h
        rw [ih _ _ h]
        cases hst : s.stack_start <;>
          simp [classify_expected, nwPages, wPages, List.filter_cons, hw, hrw, hst, stackIdx]
      | some a =>
        cases hst : s.stack_start with
        | none =>
          simp only [classify_loop, classify_step, hw, hrw, hst, if_true] at h
          rw [ih _ _ h]
          simp [classify_expected, nwPages, wPages, List.filter_cons, hw, hrw, hst, stackIdx]
        | some b =>
          simp only [classify_loop, classify_step, hw, hrw, hst, if_true] at h
          cases h
    | false =>
      cases hro : s.ro_start with
      | none =>
        simp only [classify_loop, classify_step, hw, Bool.false_eq_true, if_false, hro] at h
        rw [ih _ _ h]
        cases hrw : s.rw_start <;> cases hst : s.stack_start <;>
          simp [classify_expected, nwPages, wPages, List.filter_cons, hw, hro, hrw, hst, stackIdx]
      | some a =>
        simp only [classify_loop, classify_step, hw, Bool.false_eq_true, if_false, hro] at h
        cases h

/-- Every error of the classification loop is one of the two duplicate-
region panics. -/
theorem classify_loop_error_cases : ∀ (pages : List Page) (s : ClassifyState)
    (e : MemError), classify_loop s pages = .error e →
    e = .roTwice ∨ e = .stackTwice := by
  intro pages
  induction pages with
  | nil =>
    intro s e h
    simp [classify_loop] at h
  | cons p rest ih =>
    intro s e h
    cases hw : p.is_writable with
    | true =>
      cases hrw : s.rw_start with
      | none =>
        simp only [classify_loop, classify_step, hw, hrw, if_true] at h
        exact ih _ _ h
      | some a =>
        cases hst : s.stack_start with
        | none =>
          simp only [classify_loop, classify_step, hw, hrw, hst, if_true] at h
          exact ih _ _ h
        | some b =>
          simp only [classify_loop, classify_step, hw, hrw, hst, if_true] at h
          cases h
          right
          rfl
    | false =>
      cases hro : s.ro_start with
      | none =>
        simp only [classify_loop, classify_step, hw, Bool.false_eq_true, if_false, hro] at h
        exact ih _ _ h
      | some a =>
        simp only [classify_loop, classify_step, hw, Bool.false_eq_true, if_false, hro] at h
        cases h
        left
        rfl

/-- An in-bounds `writeAt` preserves the buffer length. -/
theorem writeAt_length (buf : List Nat) (off : Nat) (data : List Nat)
    (h : off + data.length ≤ buf.length) :
    (Spectool.writeAt buf off data).length = buf.length := by
  simp [Spectool.writeAt]
  omega

/-- A chunk outside the region is reported as not copied, with the buffer
untouched. -/
theorem copy_chunk_not_in (chunk : Chunk) (start : Option Nat) (size : Nat)
    (into : List Nat) (h : chunk_in_region chunk start size = false) :
    copy_chunk chunk start size into = .ok (false, into) := by
  cases start with
  | none => rfl
  | some s0 =>
    simp only [chunk_in_region, Bool.and_eq_false_iff, decide_eq_false_iff_not] at h
    simp only [copy_chunk, ge_iff_le]
    by_cases ha : s0 ≤ chunk.address
    · rcases h with h | h
      · exact absurd ha h
      · simp [ha, h]
    · simp [ha]

/-- A chunk that fits its region is copied (or skipped) without a panic,
preserving the buffer length. -/
theorem copy_chunk_fits_ok (chunk : Chunk) (start : Option Nat) (size : Nat)
    (into : List Nat) (hlen : into.length = size)
    (hfits : chunk_fits chunk start size = true) :
    ∃ b buf, copy_chunk chunk start size into = .ok (b, buf) ∧
      buf.length = into.length := by
  cases start with
  | none => exact ⟨false, into, rfl, rfl⟩
  | some s0 =>
    by_cases ha : s0 ≤ chunk.address
    · by_cases hrel : chunk.address - s0 < size
      · have hfit : chunk.address - s0 + chunk.data.length ≤ size := by
          simpa [chunk_fits, ha, hrel] using hfits
        refine ⟨true, Spectool.writeAt into (chunk.address - s0) chunk.data, ?_, ?_⟩
        · simp [copy_chunk, ha, hrel, hlen, hfit]
        · exact writeAt_length _ _ _ (by omega)
      · exact ⟨false, into, by simp [copy_chunk, ha, hrel], rfl⟩
    · exact ⟨false, into, by simp [copy_chunk, ha], rfl⟩

/-- If some chunk lands in neither region, the placement loop fails. -/
theorem place_chunks_orphan : ∀ (chunks : List Chunk) (ro rw : Option Nat)
    (rs ws : Nat) (ro_data rw_data : List Nat),
    (∃ c ∈ chunks, chunk_in_region c ro rs = false ∧ chunk_in_region c rw ws = false) →
    ∃ e, place_chunks ro rw rs ws chunks ro_data rw_data = .error e := by
  intro chunks
  induction chunks with
  | nil =>
    intro ro rw rs ws ro_data rw_data h
    rcases h with ⟨c, hc, _⟩
    exact absurd hc (List.not_mem_nil c)
  | cons ch rest ih =>
    intro ro rw rs ws ro_data rw_data h
    rcases h with ⟨c, hmem, h1, h2⟩
    rcases List.mem_cons.mp hmem with hceq | hcrest
    · subst hceq
      refine ⟨.invalidChunk, ?_⟩
      simp [place_chunks, copy_chunk_not_in _ _ _ _ h1, copy_chunk_not_in _ _ _ _ h2]
    · cases hro : copy_chunk ch ro rs ro_data with
      | error e => exact ⟨e, by simp [place_chunks, hro]⟩
      | ok pr =>
        obtain ⟨b1, ro_data'⟩ := pr
        cases hrw2 : copy_chunk ch rw ws rw_data with
        | error e => exact ⟨e, by simp [place_chunks, hro, hrw2]⟩
        | ok pr2 =>
          obtain ⟨b2, rw_data'⟩ := pr2
          by_cases hb : ¬b1 = true ∧ ¬b2 = true
          · refine ⟨.invalidChunk, ?_⟩
            simp only [place_chunks, hro, hrw2]
            rw [if_pos hb]
          · obtain ⟨e, he⟩ := ih ro rw rs ws ro_data' rw_data' ⟨c, hcrest, h1, h2⟩
            refine ⟨e, ?_⟩
            simp only [place_chunks, hro, hrw2]
            rw [if_neg hb]
            exact he

/-- When every chunk fits whichever region it starts in, the only possible
placement failure is the orphan-chunk panic. -/
theorem place_chunks_fits_error : ∀ (chunks : List Chunk) (ro rw : Option Nat)
    (rs ws : Nat) (ro_data rw_data : List Nat) (e : MemError),
    ro_data.length = rs → rw_data.length = ws →
    (∀ c ∈ chunks, chunk_fits c ro rs = true ∧ chunk_fits c rw ws = true) →
    place_chunks ro rw rs ws chunks ro_data rw_data = .error e →
    e = .invalidChunk := by
  intro chunks
  induction chunks with
  | nil =>
    intro ro rw rs ws ro_data rw_data e _ _ _ h
    simp [place_chunks] at h
  | cons ch rest ih =>
    intro ro rw rs ws ro_data rw_data e hro_len hrw_len hfits h
    obtain ⟨hf1, hf2⟩ := hfits ch (by simp)
    obtain ⟨b1, ro_data', hc1, hl1⟩ := copy_chunk_fits_ok ch ro rs ro_data hro_len hf1
    obtain ⟨b2, rw_data', hc2, hl2⟩ := copy_chunk_fits_ok ch rw ws rw_data hrw_len hf2
    simp only [place_chunks, hc1, hc2] at h
    by_cases hb : ¬b1 = true ∧ ¬b2 = true
    · rw [if_pos hb] at h
      cases h
      rfl
    · rw [if_neg hb] at h
      exact ih ro rw rs ws ro_data' rw_data' e (hl1.trans hro_len)
        (hl2.trans hrw_len) (fun c hc => hfits c (by simp [hc])) h

/-- Every error of the fixed-address checks is one of the two address
panics. -/
theorem check_addresses_error_cases (ro rw : Option Nat) (e : MemError)
    (h : check_addresses ro rw = .error e) :
    e = .roAddress ∨ e = .rwAddress := by
  cases hro : ro with
  | none =>
    cases hrw : rw with
    | none => simp [check_addresses, hro, hrw] at h
    | some b =>
      by_cases hb : b = 0x20000
      · simp [check_addresses, hro, hrw, hb] at h
      · simp [check_addresses, hro, hrw, hb] at h
        exact Or.inr h.symm
  | some a =>
    by_cases ha : a = 0x10000
    · cases hrw : rw with
      | none => simp [check_addresses, hro, hrw, ha] at h
      | some b =>
        by_cases hb : b = 0x20000
        · simp [check_addresses, hro, hrw, ha, hb] at h
        · simp [check_addresses, hro, hrw, ha, hb] at h
          exact Or.inr h.symm
    · simp [check_addresses, hro, ha] at h
      exact Or.inl h.symm

/-- C4.  Page-map classification: each non-writable record becomes the
read-only region (at most one; a second is a ConfigurationError), the
first writable record the read-write region, the second writable record
the stack region, and a third writable record fails with a
ConfigurationError; zero declared regions is valid. -/
theorem c4_page_map_classification (parts : ProgramParts) (pages : List Page) :
    ((nwPages pages).length ≤ 1 ∧ (wPages pages).length ≤ 2 →
      ∃ r, classify_pages parts pages = .ok r ∧
        r.ro_start = (nwPages pages).head?.map Page.address ∧
        r.parts.ro_data_size =
          (match (nwPages pages).head? with
           | some p => p.length
           | none => parts.ro_data_size) ∧
        r.rw_start = (wPages pages).head?.map Page.address ∧
        r.parts.rw_data_size =
          (match (wPages pages).head? with
           | some p => p.length
           | none => parts.rw_data_size) ∧
        r.stack_start = ((wPages pages).get? 1).map Page.address ∧
        r.parts.stack_size =
          (match (wPages pages).get? 1 with
           | some p => p.length
           | none => parts.stack_size)) ∧
    (2 ≤ (nwPages pages).length ∨ 3 ≤ (wPages pages).length →
      ∃ e, classify_pages parts pages = .error e ∧ e.isConfigurationError = true) ∧
    (pages = [] → classify_pages parts pages = .ok { parts := parts }) := by
  refine ⟨?_, ?_, ?_⟩
  · intro hb
    have hcap : (nwPages pages).length ≤ roCap { parts := parts } ∧
        (wPages pages).length ≤ wCap { parts := parts } := by
      simpa [roCap, wCap] using hb
    obtain ⟨r, hr⟩ := (classify_loop_ok_iff pages { parts := parts }).mpr hcap
    refine ⟨r, hr, ?_⟩
    have heq := classify_loop_ok_eq pages { parts := parts } r hr
    rw [heq]
    cases h1 : (nwPages pages).head? <;>
      cases h2 : (wPages pages).head? <;>
      cases h3 : (wPages pages)[1]? <;>
      simp [classify_expected, stackIdx, List.get?_eq_getElem?, h1, h2, h3]
  · intro hcnt
    cases hres : classify_pages parts pages with
    | ok r =>
      exfalso
      have hbound := (classify_loop_ok_iff pages { parts := parts }).mp ⟨r, hres⟩
      simp [roCap, wCap] at hbound
      omega
    | error e =>
      refine ⟨e, rfl, ?_⟩
      rcases classify_loop_error_cases pages _ e hres with h | h <;>
        simp [h, MemError.isConfigurationError]
  · intro h
    subst h
    rfl

/-- C4 witness: a page map with one non-writable and two writable records
classifies into RO/RW/stack; one with three writable records fails; the
empty page map is valid. -/
theorem c4_page_map_classification_witness :
    (∃ r, classify_pages {}
        [{ address := 0x20000, length := 8, is_writable := true },
         { address := 0x10000, length := 4, is_writable := false },
         { address := 0xfe000, length := 16, is_writable := true }] = .ok r ∧
      r.ro_start = some 0x10000 ∧ r.parts.ro_data_size = 4 ∧
      r.rw_start = some 0x20000 ∧ r.parts.rw_data_size = 8 ∧
      r.stack_start = some 0xfe000 ∧ r.parts.stack_size = 16) ∧
    (∃ e, classify_pages {}
        [{ address := 1, length := 1, is_writable := true },
         { address := 2, length := 1, is_writable := true },
         { address := 3, length := 1, is_writable := true }] = .error e ∧
      e.isConfigurationError = true) ∧
    classify_pages {} ([] : List Page) = .ok { parts := {} } := by
  refine ⟨?_, ?_, ?_⟩
  · have h := (c4_page_map_classification {}
      [{ address := 0x20000, length := 8, is_writable := true },
       { address := 0x10000, length := 4, is_writable := false },
       { address := 0xfe000, length := 16, is_writable := true }]).1 (by decide)
    simpa [nwPages, wPages] using h
  · exact (c4_page_map_classification {}
      [{ address := 1, length := 1, is_writable := true },
       { address := 2, length := 1, is_writable := true },
       { address := 3, length := 1, is_writable := true }]).2.1 (by decide)
  · exact (c4_page_map_classification {} []).2.2 rfl

/-- C5.  Fixed-address invariant: when both the read-only and read-write
regions are declared, memory-layout decoding succeeds only if they sit at
`0x10000` and `0x20000` respectively; any declared region at a different
address fails with a ConfigurationError. -/
theorem c5_fixed_address_invariant (parts : ProgramParts) (pages : List Page)
    (chunks : List Chunk) (s : ClassifyState)
    (hc : classify_pages parts pages = .ok s) :
    (∀ a b r, s.ro_start = some a → s.rw_start = some b →
      setup_memory_decoded parts pages chunks = .ok r →
      a = 0x10000 ∧ b = 0x20000) ∧
    (∀ a, s.ro_start = some a → a ≠ 0x10000 →
      setup_memory_decoded parts pages chunks = .error .roAddress) ∧
    (∀ b, s.rw_start = some b → b ≠ 0x20000 →
      ∃ e, setup_memory_decoded parts pages chunks = .error e ∧
        e.isConfigurationError = true) := by
  have hro_bad : ∀ a, s.ro_start = some a → a ≠ 0x10000 →
      setup_memory_decoded parts pages chunks = .error .roAddress := by
    intro a ha hne
    simp [setup_memory_decoded, hc, check_addresses, ha, hne]
  have hrw_bad : ∀ b, s.rw_start = some b → b ≠ 0x20000 →
      ∃ e, setup_memory_decoded parts pages chunks = .error e ∧
        e.isConfigurationError = true := by
    intro b hb hne
    cases hro : s.ro_start with
    | none =>
      refine ⟨.rwAddress, ?_, rfl⟩
      simp [setup_memory_decoded, hc, check_addresses, hro, hb, hne]
    | some a =>
      by_cases ha : a = 0x10000
      · refine ⟨.rwAddress, ?_, rfl⟩
        simp [setup_memory_decoded, hc, check_addresses, hro, ha, hb, hne]
      · exact ⟨.roAddress, hro_bad a hro ha, rfl⟩
  refine ⟨?_, hro_bad, hrw_bad⟩
  intro a b r ha hb hok
  by_cases ha' : a = 0x10000
  · by_cases hb' : b = 0x20000
    · exact ⟨ha', hb'⟩
    · obtain ⟨e, he, _⟩ := hrw_bad b hb hb'
      rw [hok] at he
      cases he
  · have he := hro_bad a ha ha'
    rw [hok] at he
    cases he

/-- C5 witness: a read-only region declared at the wrong address fails
with the RO-address ConfigurationError. -/
theorem c5_fixed_address_invariant_witness :
    setup_memory_decoded {}
      [{ address := 0x12345, length := 4, is_writable := false }] [] =
      .error .roAddress := by
  have h := (c5_fixed_address_invariant {}
      [{ address := 0x12345, length := 4, is_writable := false }] []
      { parts := { ro_data_size := 4 }, ro_start := some 0x12345 }
      (by decide)).2.1 0x12345 rfl (by decide)
  exact h

/-- C10.  Chunk placement is total only for fully contained chunks: a
chunk whose start lies inside a declared region but whose contents extend
past the region's end hits the slice-bounds panic of the byte copy, which
is not one of the ConfigurationError panics. -/
theorem c10_chunk_overrun_slice_panic :
    setup_memory_decoded {}
      [{ address := 0x10000, length := 4, is_writable := false }]
      [{ address := 0x10002, data := [1, 1, 1, 1] }] = .error .sliceOob ∧
    MemError.sliceOob.isConfigurationError = false := by
  exact ⟨by decide, rfl⟩

/-- C6.  Orphan-chunk atomicity: a chunk landing in no declared region
makes memory-layout decoding fail, the live session is not replaced and no
region buffer is installed; when no chunk overruns its region (so the
slice-bounds panic of C10 cannot preempt it), the failure is a
ConfigurationError. -/
theorem c6_orphan_chunk_atomicity (exec : Core → StepOutcome) (st : ShellState)
    (registers : List Nat) (gas : Int) (pages : List Page) (chunks : List Chunk)
    (s : ClassifyState)
    (hc : classify_pages {} pages = .ok s)
    (horphan : ∃ c ∈ chunks,
      chunk_in_region c s.ro_start s.parts.ro_data_size = false ∧
      chunk_in_region c s.rw_start s.parts.rw_data_size = false) :
    (∃ e, setup_memory_decoded {} pages chunks = .error e) ∧
    resetGenericWithMemory_decoded exec st registers pages chunks gas = st ∧
    ((∀ c ∈ chunks, chunk_fits c s.ro_start s.parts.ro_data_size = true ∧
        chunk_fits c s.rw_start s.parts.rw_data_size = true) →
      ∃ e, setup_memory_decoded {} pages chunks = .error e ∧
        e.isConfigurationError = true) := by
  have herr : ∃ e, setup_memory_decoded {} pages chunks = .error e := by
    cases hchk : check_addresses s.ro_start s.rw_start with
    | error e =>
      exact ⟨e, by simp [setup_memory_decoded, hc, hchk]⟩
    | ok u =>
      obtain ⟨e, he⟩ := place_chunks_orphan chunks s.ro_start s.rw_start
        s.parts.ro_data_size s.parts.rw_data_size
        (List.replicate s.parts.ro_data_size 0)
        (List.replicate s.parts.rw_data_size 0) horphan
      exact ⟨e, by simp [setup_memory_decoded, hc, hchk, he]⟩
  refine ⟨herr, ?_, ?_⟩
  · obtain ⟨e, he⟩ := herr
    simp [resetGenericWithMemory_decoded, he]
  · intro hfits
    cases hchk : check_addresses s.ro_start s.rw_start with
    | error e =>
      refine ⟨e, by simp [setup_memory_decoded, hc, hchk], ?_⟩
      rcases check_addresses_error_cases _ _ e hchk with h | h <;>
        simp [h, MemError.isConfigurationError]
    | ok u =>
      cases hpl : place_chunks s.ro_start s.rw_start s.parts.ro_data_size
          s.parts.rw_data_size chunks (List.replicate s.parts.ro_data_size 0)
          (List.replicate s.parts.rw_data_size 0) with
      | error e =>
        have heq := place_chunks_fits_error chunks s.ro_start s.rw_start
          s.parts.ro_data_size s.parts.rw_data_size _ _ e
          (List.length_replicate _ _) (List.length_replicate _ _) hfits hpl
        subst heq
        exact ⟨.invalidChunk, by simp [setup_memory_decoded, hc, hchk, hpl], rfl⟩
      | ok bufs =>
        exfalso
        obtain ⟨e, he⟩ := place_chunks_orphan chunks s.ro_start s.rw_start
          s.parts.ro_data_size s.parts.rw_data_size
          (List.replicate s.parts.ro_data_size 0)
          (List.replicate s.parts.rw_data_size 0) horphan
        rw [hpl] at he
        cases he

/-- C6 witness: a chunk far outside the only declared region aborts
decoding with the orphan-chunk ConfigurationError and leaves the session
untouched. -/
theorem c6_orphan_chunk_atomicity_witness :
    (∃ e, setup_memory_decoded {}
        [{ address := 0x10000, length := 4, is_writable := false }]
        [{ address := 0x99999, data := [7] }] = .error e) ∧
    resetGenericWithMemory_decoded (fun _ => .finished) initialShell []
      [{ address := 0x10000, length := 4, is_writable := false }]
      [{ address := 0x99999, data := [7] }] 0 = initialShell ∧
    ((∀ c ∈ [({ address := 0x99999, data := [7] } : Chunk)],
        chunk_fits c (some 0x10000) 4 = true ∧ chunk_fits c none 0 = true) →
      ∃ e, setup_memory_decoded {}
          [{ address := 0x10000, length := 4, is_writable := false }]
          [{ address := 0x99999, data := [7] }] = .error e ∧
        e.isConfigurationError = true) := by
  have h := c6_orphan_chunk_atomicity (fun _ => .finished) initialShell [] 0
    [{ address := 0x10000, length := 4, is_writable := false }]
    [{ address := 0x99999, data := [7] }]
    { parts := { ro_data_size := 4 }, ro_start := some 0x10000 }
    (by decide)
    ⟨{ address := 0x99999, data := [7] }, by decide, by decide, by decide⟩
  exact h

/-- C2 counterexample: on a host-call (`Ecalli`) interrupt the interactive
`nextStep` returns `false` even though the resulting `Host` status is not
in the terminal set, so "returns false exactly when the resulting status
is terminal" and "after a Host status nextStep() has returned true" are
both false of the code. -/
theorem c2_host_stops_counterexample :
    (nextStep (fun _ => .hostCall 7 { regs := [], pc := none, gas := 0 })
        { pvm := some { core := { regs := [], pc := none, gas := 0 } },
          status := .Ok, exitArg := 0, pvmPoisoned := false }).1 = false ∧
    (nextStep (fun _ => .hostCall 7 { regs := [], pc := none, gas := 0 })
        { pvm := some { core := { regs := [], pc := none, gas := 0 } },
          status := .Ok, exitArg := 0, pvmPoisoned := false }).2.status =
      Status.Host ∧
    Status.Host.isTerminal = false := by
  exact ⟨rfl, rfl, rfl⟩

/-- C2 (amended).  `nextStep` returns `true` exactly when the resulting
status is `Ok`; it returns `false` exactly when the resulting status is
terminal or `Host` — a host-call interrupt also stops the interactive
stepping loop. -/
theorem c2_amended_stop_iff_not_ok (exec : Core → StepOutcome) (st : ShellState) :
    ((nextStep exec st).1 = true ↔ (nextStep exec st).2.status = Status.Ok) ∧
    ((nextStep exec st).1 = false ↔
      ((nextStep exec st).2.status.isTerminal = true ∨
        (nextStep exec st).2.status = Status.Host)) := by
  by_cases hp : st.pvmPoisoned
  · simp [nextStep, with_pvm, hp, Status.isTerminal]
  · cases hpvm : st.pvm with
    | none => simp [nextStep, with_pvm, hp, hpvm, Status.isTerminal]
    | some inst =>
      cases hfin : inst.finalInterrupt with
      | some i =>
        cases i <;>
          simp [nextStep, with_pvm, RawInstance.run, hp, hpvm, hfin, Status.isTerminal]
      | none =>
        cases hex : exec inst.core <;>
          simp [nextStep, with_pvm, RawInstance.run, hp, hpvm, hfin, hex,
            Status.isTerminal]

/-- C9 counterexample: `getStatus` never consults the session.  Calling
`nextStep()` before the first reset takes `with_pvm`'s default
`(false, Status::Panic)` and stores `Panic` into the `STATUS` static, so
with the session still absent `getStatus` returns 1, not the neutral `Ok`
sentinel 255 — refuting "for every accessor call made when no session is
active … getStatus returns the neutral Ok sentinel". -/
theorem c9_ok_sentinel_counterexample :
    (nextStep (fun _ => .finished) initialShell).2.pvm = none ∧
    getStatus (nextStep (fun _ => .finished) initialShell).2 = 1 ∧
    (1 : Nat) ≠ 255 := by
  exact ⟨rfl, rfl, by decide⟩

/-- C9 (amended).  No-session defaults: with no live session (before the
first reset, or with the session lock poisoned) `getRegisters` returns
the all-zero 13-register byte block, `getGasLeft` returns 0 and
`getProgramCounter` returns 0, rather than failing.  `getStatus` does not
consult the session: it returns the code of the last stored status
whatever the session state is, which in the initial state — before any
reset or step has run — is the neutral `Ok` sentinel 255. -/
theorem c9_no_session_defaults (st : ShellState)
    (h : st.pvm = none ∨ st.pvmPoisoned = true) :
    getRegisters st = List.replicate (13 * 8) 0 ∧
    getGasLeft st = 0 ∧
    getProgramCounter st = 0 ∧
    getStatus st = st.status.code ∧
    getStatus initialShell = 255 := by
  have hw : ∀ (α : Type) (f : RawInstance → α × RawInstance) (d : α),
      (with_pvm st f d).1 = d := by
    intro α f d
    rcases h with h | h
    · by_cases hp : st.pvmPoisoned
      · simp [with_pvm, hp]
      · simp [with_pvm, hp, h]
    · simp [with_pvm, h]
  refine ⟨?_, ?_, ?_, rfl, rfl⟩
  · simpa [getRegisters] using hw _ _ _
  · simpa [getGasLeft] using hw _ _ _
  · simpa [getProgramCounter] using hw _ _ _

/-- C9 witness: the accessors evaluated in the initial state (no
session). -/
theorem c9_no_session_defaults_witness :
    getRegisters initialShell = List.replicate (13 * 8) 0 ∧
    getGasLeft initialShell = 0 ∧
    getProgramCounter initialShell = 0 ∧
    getStatus initialShell = initialShell.status.code ∧
    getStatus initialShell = 255 :=
  c9_no_session_defaults initialShell (Or.inl rfl)

/-- C3.  Step monotonicity: a successful reset has already run one step
(the state it returns reflects one executed instruction and no explicit
`nextStep` call); while no terminal interrupt is recorded each `nextStep`
advances by exactly one decoded instruction; a terminal outcome is
recorded in the instance; and once recorded, every further `nextStep`
returns `false` with the same terminal status and an unchanged program
counter (the stepped state is a fixpoint). -/
theorem c3_step_monotonicity (exec : Core → StepOutcome) :
    (∀ (st : ShellState) (registers : List Nat) (pages : List Page)
        (chunks : List Chunk) (gas : Int) (parts : ProgramParts) (c : Core),
      st.pvmPoisoned = false →
      setup_memory_decoded {} pages chunks = .ok parts →
      exec (initial_core registers gas) = .advance c →
      resetGenericWithMemory_decoded exec st registers pages chunks gas =
        { st with pvm := some { core := c }, status := .Ok }) ∧
    (∀ (st : ShellState) (inst : RawInstance) (c : Core),
      st.pvmPoisoned = false → st.pvm = some inst →
      inst.finalInterrupt = none → exec inst.core = .advance c →
      nextStep exec st =
        (true, { st with pvm := some { core := c }, status := .Ok })) ∧
    (∀ (st : ShellState) (inst : RawInstance),
      st.pvmPoisoned = false → st.pvm = some inst →
      inst.finalInterrupt = none → exec inst.core = .finished →
      nextStep exec st = (false,
        { st with pvm := some { inst with finalInterrupt := some .Finished },
                  status := .Halt })) ∧
    (∀ (st : ShellState) (inst : RawInstance) (i : Interrupt),
      st.pvmPoisoned = false → st.pvm = some inst →
      inst.finalInterrupt = some i → i.isMachineTerminal = true →
      (nextStep exec st).1 = false ∧
      (nextStep exec st).2.status.isTerminal = true ∧
      (nextStep exec st).2.pvm = st.pvm ∧
      getProgramCounter (nextStep exec st).2 = getProgramCounter st ∧
      nextStep exec (nextStep exec st).2 = (false, (nextStep exec st).2)) := by
  refine ⟨?_, ?_, ?_, ?_⟩
  · intro st registers pages chunks gas parts c hp hsetup hexec
    simp [resetGenericWithMemory_decoded, hsetup, hp, nextStep, with_pvm,
      RawInstance.run, hexec]
  · intro st inst c hp hpvm hfin hexec
    simp [nextStep, with_pvm, RawInstance.run, hp, hpvm, hfin, hexec]
  · intro st inst hp hpvm hfin hexec
    simp [nextStep, with_pvm, RawInstance.run, hp, hpvm, hfin, hexec]
  · intro st inst i hp hpvm hfin hterm
    cases i with
    | Finished =>
      refine ⟨?_, ?_, ?_, ?_, ?_⟩ <;>
        simp [nextStep, with_pvm, RawInstance.run, hp, hpvm, hfin,
          Status.isTerminal, getProgramCounter]
    | Trap =>
      refine ⟨?_, ?_, ?_, ?_, ?_⟩ <;>
        simp [nextStep, with_pvm, RawInstance.run, hp, hpvm, hfin,
          Status.isTerminal, getProgramCounter]
    | Segfault a =>
      refine ⟨?_, ?_, ?_, ?_, ?_⟩ <;>
        simp [nextStep, with_pvm, RawInstance.run, hp, hpvm, hfin,
          Status.isTerminal, getProgramCounter]
    | NotEnoughGas =>
      refine ⟨?_, ?_, ?_, ?_, ?_⟩ <;>
        simp [nextStep, with_pvm, RawInstance.run, hp, hpvm, hfin,
          Status.isTerminal, getProgramCounter]
    | Ecalli n => simp [Interrupt.isMachineTerminal] at hterm
    | Step => simp [Interrupt.isMachineTerminal] at hterm

/-- C3 witness: the four conjuncts of step monotonicity evaluated on
concrete sessions running `c3exec`. -/
theorem c3_step_monotonicity_witness :
    resetGenericWithMemory_decoded c3exec initialShell [] [] [] 0 =
      { initialShell with
          pvm := some
            { core := { regs := List.replicate 13 0, pc := some 1, gas := 0 } },
          status := .Ok } ∧
    nextStep c3exec
        { pvm := some { core := { regs := [], pc := some 0, gas := 5 } },
          status := .Ok, exitArg := 0, pvmPoisoned := false } =
      (true,
        { pvm := some { core := { regs := [], pc := some 1, gas := 5 } },
          status := .Ok, exitArg := 0, pvmPoisoned := false }) ∧
    nextStep c3exec
        { pvm := some { core := { regs := [], pc := none, gas := 5 } },
          status := .Ok, exitArg := 0, pvmPoisoned := false } =
      (false,
        { pvm := some { core := { regs := [], pc := none, gas := 5 },
                        finalInterrupt := some .Finished },
          status := .Halt, exitArg := 0, pvmPoisoned := false }) ∧
    ((nextStep c3exec
        { pvm := some { core := { regs := [], pc := none, gas := 0 },
                        finalInterrupt := some .Trap },
          status := .Ok, exitArg := 0, pvmPoisoned := false }).1 = false ∧
      (nextStep c3exec
        { pvm := some { core := { regs := [], pc := none, gas := 0 },
                        finalInterrupt := some .Trap },
          status := .Ok, exitArg := 0, pvmPoisoned := false }).2.status.isTerminal =
        true) := by
  refine ⟨?_, ?_, ?_, ?_⟩
  · exact (c3_step_monotonicity c3exec).1 initialShell [] [] [] 0 {}
      { regs := List.replicate 13 0, pc := some 1, gas := 0 }
      rfl (by decide) rfl
  · exact (c3_step_monotonicity c3exec).2.1 _
      { core := { regs := [], pc := some 0, gas := 5 } }
      { regs := [], pc := some 1, gas := 5 } rfl rfl rfl rfl
  · exact (c3_step_monotonicity c3exec).2.2.1 _
      { core := { regs := [], pc := none, gas := 5 } } rfl rfl rfl rfl
  · have h := (c3_step_monotonicity c3exec).2.2.2
      { pvm := some { core := { regs := [], pc := none, gas := 0 },
                      finalInterrupt := some .Trap },
        status := .Ok, exitArg := 0, pvmPoisoned := false }
      { core := { regs := [], pc := none, gas := 0 },
        finalInterrupt := some .Trap } .Trap rfl rfl rfl rfl
    exact ⟨h.1, h.2.1⟩

end PvmShell
